import Mathlib

/-! Flux manager (`third_party/flux/flux.go`).

A shallow embedding of the flux command builder: the option record, the
functional options, command rendering, the `run` routine and the six public
operations, followed by the properties proved about them.

Conventions of the embedding.

* A Go `string` is a Lean `String`; `[]string` is `List String`; `append` is
  list append and `strings.Join(parts, " ")` is `String.intercalate " " parts`.
* A Go `error` is `error := Option String` (`none` is `nil`, `some msg` is an
  error whose text is `msg`).  The three `fmt.Errorf` calls have no verbs, so
  the text is the literal.
* The process facility (`*gexe.Echo`) is an external library.  It is taken as
  a parameter: `Echo.Avail` stands for `e.Prog().Avail(_)` and `Echo.RunProc`
  for `e.RunProc(_)`, returning a `Proc` whose three observers the code reads.
* Every operation returns its Go result together with the list of calls it
  made on the process facility, in order (`Event`).  The two `klog` calls
  write a verbosity-gated log line and influence neither; they are left out.
-/

set_option linter.unusedVariables false

namespace Flux

/-- Go `error` values: `none` is `nil`, `some msg` is an error with text `msg`. -/
abbrev error := Option String

/-- The record `Opts` (flux.go, lines 10-16). -/
structure Opts where
  «namespace» : String
  mode : String
  branch : String
  tag : String
  args : List String
deriving DecidableEq

/-- The finished process handed back by `RunProc` (gexe, external): only the
observers used by `run` are kept. -/
structure Proc where
  Result : String
  IsSuccess : Bool
  Err : error

/-- The process facility `*gexe.Echo` (external), as the two calls `run` makes. -/
structure Echo where
  Avail : String → String
  RunProc : String → Proc

/-- The record `Manager` (flux.go, lines 18-21). -/
structure Manager where
  e : Echo
  kubeConfig : String

/-- Calls made on the process facility. -/
inductive Event where
  | avail (prog : String)
  | runProc (command : String)
deriving DecidableEq

/-- The type `Option func(*Opts)` (flux.go, line 23): the pointer mutation is
the function from the record before to the record after. -/
def Option : Type := Opts → Opts

/-- The method `processOpts` (flux.go, lines 25-31): start from `&Opts{}` and
apply every option in order. -/
def Manager.processOpts (m : Manager) (opts : List Option) : Opts :=
  opts.foldl (fun option op => op option)
    { «namespace» := "", mode := "", branch := "", tag := "", args := [] }

/-- The option `WithNamespace` (flux.go, lines 45-49). -/
def WithNamespace («namespace» : String) : Option :=
  fun opts => { opts with «namespace» := «namespace» }

/-- The option `WithTag` (flux.go, lines 51-55). -/
def WithTag («namespace» : String) : Option :=
  fun opts => { opts with tag := «namespace» }

/-- The option `WithBranch` (flux.go, lines 57-61). -/
def WithBranch («namespace» : String) : Option :=
  fun opts => { opts with branch := «namespace» }

/-- The option `WithArgs` (flux.go, lines 63-67). -/
def WithArgs (args : List String) : Option :=
  fun opts => { opts with args := args }

/-- The method `getCommand` (flux.go, lines 93-108). -/
def Manager.getCommand (m : Manager) (opt : Opts) : String × error :=
  let commandParts := ["flux", opt.mode]
  let commandParts :=
    if opt.«namespace» ≠ "" then commandParts ++ ["--namespace", opt.«namespace»]
    else commandParts
  let commandParts :=
    if opt.branch ≠ "" then commandParts ++ ["--branch", opt.branch]
    else commandParts
  let commandParts :=
    if opt.tag ≠ "" then commandParts ++ ["--tag", opt.tag]
    else commandParts
  let commandParts := commandParts ++ opt.args
  let commandParts := commandParts ++ ["--kubeconfig", m.kubeConfig]
  (String.intercalate " " commandParts, none)

/-- The method `run` (flux.go, lines 69-87). -/
def Manager.run (m : Manager) (opts : Opts) : error × List Event :=
  if m.e.Avail "flux" = "" then
    (some "'flux' command is missing. Please ensure the tool exists before using the flux manager",
      [Event.avail "flux"])
  else
    match m.getCommand opts with
    | (_, some err) => (some err, [Event.avail "flux"])
    | (command, none) =>
      let proc := m.e.RunProc command
      let result := proc.Result
      if proc.IsSuccess then (none, [Event.avail "flux", Event.runProc command])
      else (proc.Err, [Event.avail "flux", Event.runProc command])

/-- The method `InstallFlux` (flux.go, lines 33-37). -/
def Manager.InstallFlux (m : Manager) (opts : List Option) : error × List Event :=
  let o := m.processOpts opts
  let o := { o with mode := "install" }
  m.run o

/-- The method `UninstallFlux` (flux.go, lines 39-43). -/
def Manager.UninstallFlux (m : Manager) (opts : List Option) : error × List Event :=
  let o := m.processOpts opts
  let o := { o with mode := "uninstall" }
  m.run o

/-- The method `CreateGitRepo` (flux.go, lines 110-128). -/
def Manager.CreateGitRepo (m : Manager) (name : String) (url : String)
    (opts : List Option) : error × List Event :=
  let o := m.processOpts opts
  let command := ["create source git"]
  if name = "" then (some "GitRepository name is required", [])
  else if url = "" then (some "GitRepository url is required", [])
  else
    let command := command ++ [name, "--url", url]
    if o.branch = "" ∨ o.tag = "" then (some "GitRepository tag or branch is required", [])
    else m.run o

/-- The method `CreateHelmRepo` (flux.go, lines 130-148). -/
def Manager.CreateHelmRepo (m : Manager) (name : String) (url : String)
    (opts : List Option) : error × List Event :=
  let o := m.processOpts opts
  let command := ["create source helm"]
  if name = "" then (some "GitRepository name is required", [])
  else if url = "" then (some "GitRepository url is required", [])
  else
    let command := command ++ [name, "--url", url]
    if o.branch = "" ∨ o.tag = "" then (some "GitRepository tag or branch is required", [])
    else m.run o

/-- The method `CreateKustomization` (flux.go, lines 150-168). -/
def Manager.CreateKustomization (m : Manager) (name : String) (source : String)
    (opts : List Option) : error × List Event :=
  let o := m.processOpts opts
  let command := ["create ks"]
  if name = "" then (some "Kustomization name is required", [])
  else if source = "" then (some "Kustomization source is required", [])
  else
    let command := command ++ [name, "--source", source]
    if o.branch = "" ∨ o.tag = "" then (some "GitRepository tag or branch is required", [])
    else m.run o

/-- The method `CreateHelmRelease` (flux.go, lines 170-188). -/
def Manager.CreateHelmRelease (m : Manager) (name : String) (source : String)
    (chartName : String) (opts : List Option) : error × List Event :=
  let o := m.processOpts opts
  let command := ["create hr"]
  if name = "" then (some "Kustomization name is required", [])
  else if source = "" then (some "Kustomization source is required", [])
  else
    let command := command ++ [name, "--source", source]
    if o.branch = "" ∨ o.tag = "" then (some "GitRepository tag or branch is required", [])
    else m.run o

/-- A process facility on which `flux` resolves and every process exits with
status zero (used for concrete evaluations). -/
def okEcho : Echo :=
  { Avail := fun _ => "/usr/local/bin/flux",
    RunProc := fun _ => { Result := "", IsSuccess := true, Err := none } }

/-- A process facility on which `flux` does not resolve. -/
def noFluxEcho : Echo :=
  { Avail := fun _ => "",
    RunProc := fun _ => { Result := "", IsSuccess := true, Err := none } }

/-- The text of the missing-tool error of `run` (flux.go, line 71). -/
def missingToolError : String :=
  "'flux' command is missing. Please ensure the tool exists before using the flux manager"

/-- The text of the branch-or-tag validation error shared by the four
create operations (flux.go, lines 124, 144, 164, 184). -/
def tagOrBranchError : String :=
  "GitRepository tag or branch is required"

/-- Single-space join as the specification words it: the elements in order,
one space between two neighbours, nothing before the first or after the last. -/
def joinSingleSpace : List String → String
  | [] => ""
  | [a] => a
  | a :: b :: rest => a ++ " " ++ joinSingleSpace (b :: rest)

/-- The string `s` begins with `p`. -/
def StartsWith (s p : String) : Prop := ∃ rest : String, s = p ++ rest

/-- The string `s` ends with `p`. -/
def EndsWith (s p : String) : Prop := ∃ front : String, s = front ++ p

/-- The string `s` holds an occurrence of `a` that is over before an
occurrence of `b` begins. -/
def ContainsBefore (s a b : String) : Prop :=
  ∃ pre mid post : String, s = pre ++ a ++ mid ++ b ++ post

/-- An option as the caller writes it: one of the four exported constructors
with its argument. -/
inductive OptionCall where
  | withNamespace (v : String)
  | withBranch (v : String)
  | withTag (v : String)
  | withArgs (v : List String)

/-- The `Option` value a written call denotes. -/
def OptionCall.toOption : OptionCall → Option
  | .withNamespace v => WithNamespace v
  | .withBranch v => WithBranch v
  | .withTag v => WithTag v
  | .withArgs v => WithArgs v

/-- Specification side of last-write-wins: the argument of the last
`WithNamespace` call of the list, the empty string when there is none. -/
def lastNamespaceArg (calls : List OptionCall) : String :=
  match (calls.filterMap fun c => match c with
    | .withNamespace v => some v
    | _ => none).getLast? with
  | some v => v
  | none => ""

/-- Specification side of last-write-wins: the argument of the last
`WithBranch` call of the list, the empty string when there is none. -/
def lastBranchArg (calls : List OptionCall) : String :=
  match (calls.filterMap fun c => match c with
    | .withBranch v => some v
    | _ => none).getLast? with
  | some v => v
  | none => ""

/-- Specification side of last-write-wins: the argument of the last
`WithTag` call of the list, the empty string when there is none. -/
def lastTagArg (calls : List OptionCall) : String :=
  match (calls.filterMap fun c => match c with
    | .withTag v => some v
    | _ => none).getLast? with
  | some v => v
  | none => ""

/-- Specification side of last-write-wins: the argument of the last
`WithArgs` call of the list, the empty sequence when there is none. -/
def lastArgsArg (calls : List OptionCall) : List String :=
  match (calls.filterMap fun c => match c with
    | .withArgs v => some v
    | _ => none).getLast? with
  | some v => v
  | none => []

/-- A process facility on which `flux` resolves and every process fails with
the error `exit status 1`. -/
def failEcho : Echo :=
  { Avail := fun _ => "/usr/local/bin/flux",
    RunProc := fun _ => { Result := "", IsSuccess := false, Err := some "exit status 1" } }

/-- A process facility on which `flux` resolves and every process reports
failure while carrying a nil error. -/
def silentFailEcho : Echo :=
  { Avail := fun _ => "/usr/local/bin/flux",
    RunProc := fun _ => { Result := "", IsSuccess := false, Err := none } }

/-- The four create operations, to quantify over them. -/
inductive CreateOp where
  | gitRepo
  | helmRepo
  | kustomization
  | helmRelease (chartName : String)

/-- Call of a create operation on its name and url/source arguments. -/
def CreateOp.call (op : CreateOp) (m : Manager) (name : String) (source : String)
    (opts : List Option) : error × List Event :=
  match op with
  | .gitRepo => m.CreateGitRepo name source opts
  | .helmRepo => m.CreateHelmRepo name source opts
  | .kustomization => m.CreateKustomization name source opts
  | .helmRelease chartName => m.CreateHelmRelease name source chartName opts

/-- The text each create operation returns for an empty name. -/
def CreateOp.nameError : CreateOp → String
  | .gitRepo => "GitRepository name is required"
  | .helmRepo => "GitRepository name is required"
  | .kustomization => "Kustomization name is required"
  | .helmRelease _ => "Kustomization name is required"

/-- The text each create operation returns for an empty url/source. -/
def CreateOp.sourceError : CreateOp → String
  | .gitRepo => "GitRepository url is required"
  | .helmRepo => "GitRepository url is required"
  | .kustomization => "Kustomization source is required"
  | .helmRelease _ => "Kustomization source is required"

/-- The command strings of the processes executed in a list of calls. -/
def processesRun (trace : List Event) : List String :=
  trace.filterMap fun ev => match ev with
    | .runProc command => some command
    | .avail _ => none

/-- The command `InstallFlux` renders: `getCommand` on the processed options
with the mode set to `install` (flux.go, lines 34-36 and 74). -/
def installCommand (m : Manager) (opts : List Option) : String :=
  (m.getCommand { m.processOpts opts with mode := "install" }).1

/-- The command `UninstallFlux` renders: `getCommand` on the processed options
with the mode set to `uninstall` (flux.go, lines 40-42 and 74). -/
def uninstallCommand (m : Manager) (opts : List Option) : String :=
  (m.getCommand { m.processOpts opts with mode := "uninstall" }).1

/-! ## Lemmas on `String.intercalate` -/

theorem intercalate_go_acc (acc s : String) (l : List String) :
    String.intercalate.go acc s l = acc ++ String.intercalate.go "" s l := by
  induction l generalizing acc with
  | nil => simp [String.intercalate.go]
  | cons a as ih =>
    simp only [String.intercalate.go]
    rw [ih (acc ++ s ++ a), ih ("" ++ s ++ a)]
    simp [String.append_assoc]

theorem intercalate_cons_cons (s a b : String) (l : List String) :
    String.intercalate s (a :: b :: l) = a ++ s ++ String.intercalate s (b :: l) := by
  simp only [String.intercalate, String.intercalate.go]
  rw [intercalate_go_acc (a ++ s ++ b), intercalate_go_acc b]
  simp [String.append_assoc]

theorem intercalate_singleton (s a : String) : String.intercalate s [a] = a := by
  simp [String.intercalate, String.intercalate.go]

theorem intercalate_append (s : String) (xs ys : List String) (hx : xs ≠ [])
    (hy : ys ≠ []) :
    String.intercalate s (xs ++ ys)
      = String.intercalate s xs ++ s ++ String.intercalate s ys := by
  induction xs with
  | nil => exact absurd rfl hx
  | cons a as ih =>
    cases as with
    | nil =>
      cases ys with
      | nil => exact absurd rfl hy
      | cons b bs =>
        rw [List.singleton_append, intercalate_cons_cons, intercalate_singleton]
    | cons c cs =>
      rw [List.cons_append, List.cons_append, intercalate_cons_cons,
        ← List.cons_append, ih (by simp), intercalate_cons_cons]
      simp [String.append_assoc]

theorem intercalate_eq_joinSingleSpace (l : List String) :
    String.intercalate " " l = joinSingleSpace l := by
  induction l with
  | nil => rfl
  | cons a as ih =>
    cases as with
    | nil => simp [joinSingleSpace, intercalate_singleton]
    | cons b bs => rw [intercalate_cons_cons, ih, joinSingleSpace]

/-! ## Command rendering -/

theorem getCommand_fst (m : Manager) (opt : Opts) :
    (m.getCommand opt).1 =
      String.intercalate " " (["flux", opt.mode]
        ++ (if opt.«namespace» ≠ "" then ["--namespace", opt.«namespace»] else [])
        ++ (if opt.branch ≠ "" then ["--branch", opt.branch] else [])
        ++ (if opt.tag ≠ "" then ["--tag", opt.tag] else [])
        ++ opt.args ++ ["--kubeconfig", m.kubeConfig]) := by
  unfold Manager.getCommand
  split_ifs <;> simp

theorem getCommand_snd (m : Manager) (opt : Opts) : (m.getCommand opt).2 = none := rfl

/-- Claim C3. For every option record and every manager (hence every
kubeconfig path) `getCommand` returns a nil error and the single-space join of
`flux`, the mode, then `--namespace V`, `--branch V`, `--tag V` (each only when
its value is non-empty), then the extra arguments, then `--kubeconfig` and the
path, in this order. -/
theorem getCommand_is_ordered_join (m : Manager) (opt : Opts) :
    m.getCommand opt =
      (joinSingleSpace (["flux", opt.mode]
        ++ (if opt.«namespace» ≠ "" then ["--namespace", opt.«namespace»] else [])
        ++ (if opt.branch ≠ "" then ["--branch", opt.branch] else [])
        ++ (if opt.tag ≠ "" then ["--tag", opt.tag] else [])
        ++ opt.args ++ ["--kubeconfig", m.kubeConfig]), none) := by
  rw [← intercalate_eq_joinSingleSpace, ← getCommand_fst]
  rfl

/-! ## The options builder -/

theorem processOpts_nil (m : Manager) :
    m.processOpts [] = { «namespace» := "", mode := "", branch := "", tag := "", args := [] } :=
  rfl

theorem processOpts_concat (m : Manager) (l : List Option) (op : Option) :
    m.processOpts (l ++ [op]) = op (m.processOpts l) := by
  simp [Manager.processOpts, List.foldl_append]

theorem processOpts_calls (m : Manager) (calls : List OptionCall) :
    m.processOpts (calls.map OptionCall.toOption)
      = { «namespace» := lastNamespaceArg calls, mode := "", branch := lastBranchArg calls,
          tag := lastTagArg calls, args := lastArgsArg calls } := by
  induction calls using List.reverseRecOn with
  | nil => rfl
  | append_singleton l a ih =>
    rw [List.map_append, List.map_singleton, processOpts_concat, ih]
    cases a <;>
      simp [OptionCall.toOption, WithNamespace, WithBranch, WithTag, WithArgs,
        lastNamespaceArg, lastBranchArg, lastTagArg, lastArgsArg, List.filterMap_append]

/-- Claim C8. `processOpts` starts from the zero record and applies the options
in order; for a list of `WithNamespace`, `WithBranch`, `WithTag` and `WithArgs`
calls each of namespace, branch, tag and args ends as the argument of the last
call that targets it, or as its zero value when no call does, and mode stays
empty; each of the four options sets its own field and keeps the other four. -/
theorem processOpts_last_write_wins (m : Manager) (calls : List OptionCall) :
    (m.processOpts [] =
        { «namespace» := "", mode := "", branch := "", tag := "", args := [] })
    ∧ (∀ (l : List Option) (op : Option), m.processOpts (l ++ [op]) = op (m.processOpts l))
    ∧ (m.processOpts (calls.map OptionCall.toOption)).«namespace» = lastNamespaceArg calls
    ∧ (m.processOpts (calls.map OptionCall.toOption)).branch = lastBranchArg calls
    ∧ (m.processOpts (calls.map OptionCall.toOption)).tag = lastTagArg calls
    ∧ (m.processOpts (calls.map OptionCall.toOption)).args = lastArgsArg calls
    ∧ (m.processOpts (calls.map OptionCall.toOption)).mode = ""
    ∧ (∀ (v : String) (o : Opts),
        (WithNamespace v o).«namespace» = v ∧ (WithNamespace v o).mode = o.mode
        ∧ (WithNamespace v o).branch = o.branch ∧ (WithNamespace v o).tag = o.tag
        ∧ (WithNamespace v o).args = o.args)
    ∧ (∀ (v : String) (o : Opts),
        (WithBranch v o).branch = v ∧ (WithBranch v o).mode = o.mode
        ∧ (WithBranch v o).«namespace» = o.«namespace» ∧ (WithBranch v o).tag = o.tag
        ∧ (WithBranch v o).args = o.args)
    ∧ (∀ (v : String) (o : Opts),
        (WithTag v o).tag = v ∧ (WithTag v o).mode = o.mode
        ∧ (WithTag v o).«namespace» = o.«namespace» ∧ (WithTag v o).branch = o.branch
        ∧ (WithTag v o).args = o.args)
    ∧ (∀ (v : List String) (o : Opts),
        (WithArgs v o).args = v ∧ (WithArgs v o).mode = o.mode
        ∧ (WithArgs v o).«namespace» = o.«namespace» ∧ (WithArgs v o).branch = o.branch
        ∧ (WithArgs v o).tag = o.tag) := by
  refine ⟨processOpts_nil m, processOpts_concat m, ?_, ?_, ?_, ?_, ?_, ?_, ?_, ?_, ?_⟩
  · rw [processOpts_calls]
  · rw [processOpts_calls]
  · rw [processOpts_calls]
  · rw [processOpts_calls]
  · rw [processOpts_calls]
  · intro v o; exact ⟨rfl, rfl, rfl, rfl, rfl⟩
  · intro v o; exact ⟨rfl, rfl, rfl, rfl, rfl⟩
  · intro v o; exact ⟨rfl, rfl, rfl, rfl, rfl⟩
  · intro v o; exact ⟨rfl, rfl, rfl, rfl, rfl⟩

/-! ## The `run` routine -/

theorem run_of_missing (m : Manager) (o : Opts) (h : m.e.Avail "flux" = "") :
    m.run o = (some missingToolError, [Event.avail "flux"]) := by
  simp [Manager.run, h, missingToolError]

theorem run_of_avail (m : Manager) (o : Opts) (h : m.e.Avail "flux" ≠ "") :
    m.run o =
      (if (m.e.RunProc (m.getCommand o).1).IsSuccess = true then none
        else (m.e.RunProc (m.getCommand o).1).Err,
       [Event.avail "flux", Event.runProc (m.getCommand o).1]) := by
  unfold Manager.run
  rw [if_neg h]
  have hc : m.getCommand o = ((m.getCommand o).1, none) := rfl
  rw [hc]
  simp only
  split_ifs <;> rfl

/-! ## Shape of the rendered command -/

theorem getCommand_prefix (m : Manager) (o : Opts) :
    ∃ rest : String, (m.getCommand o).1 = "flux" ++ " " ++ o.mode ++ " " ++ rest := by
  refine ⟨String.intercalate " "
    ((if o.«namespace» ≠ "" then ["--namespace", o.«namespace»] else [])
      ++ ((if o.branch ≠ "" then ["--branch", o.branch] else [])
      ++ ((if o.tag ≠ "" then ["--tag", o.tag] else [])
      ++ (o.args ++ ["--kubeconfig", m.kubeConfig])))), ?_⟩
  rw [getCommand_fst]
  simp only [List.append_assoc]
  rw [intercalate_append " " ["flux", o.mode] _ (by simp) (by simp),
    intercalate_cons_cons, intercalate_singleton]

theorem getCommand_suffix (m : Manager) (o : Opts) :
    ∃ front : String, (m.getCommand o).1 = front ++ ("--kubeconfig" ++ " " ++ m.kubeConfig) := by
  refine ⟨String.intercalate " " (["flux", o.mode]
        ++ (if o.«namespace» ≠ "" then ["--namespace", o.«namespace»] else [])
        ++ (if o.branch ≠ "" then ["--branch", o.branch] else [])
        ++ (if o.tag ≠ "" then ["--tag", o.tag] else [])
        ++ o.args) ++ " ", ?_⟩
  rw [getCommand_fst, intercalate_append " " _ ["--kubeconfig", m.kubeConfig] (by simp) (by simp),
    intercalate_cons_cons, intercalate_singleton]

theorem getCommand_namespace_branch (m : Manager) (o : Opts)
    (hn : o.«namespace» ≠ "") (hb : o.branch ≠ "") :
    ∃ post : String, (m.getCommand o).1 =
      ("flux" ++ " " ++ o.mode ++ " ") ++ ("--namespace" ++ " " ++ o.«namespace») ++ " "
        ++ ("--branch" ++ " " ++ o.branch) ++ post := by
  refine ⟨" " ++ String.intercalate " "
    ((if o.tag ≠ "" then ["--tag", o.tag] else [])
      ++ (o.args ++ ["--kubeconfig", m.kubeConfig])), ?_⟩
  rw [getCommand_fst, if_pos hn, if_pos hb]
  simp only [List.append_assoc]
  rw [show ["flux", o.mode] ++ (["--namespace", o.«namespace»] ++ (["--branch", o.branch]
        ++ ((if o.tag ≠ "" then ["--tag", o.tag] else [])
          ++ (o.args ++ ["--kubeconfig", m.kubeConfig]))))
      = ["flux", o.mode, "--namespace", o.«namespace», "--branch", o.branch]
        ++ ((if o.tag ≠ "" then ["--tag", o.tag] else [])
          ++ (o.args ++ ["--kubeconfig", m.kubeConfig])) from rfl]
  rw [intercalate_append " " _ _ (by simp) (by simp)]
  simp only [intercalate_cons_cons, intercalate_singleton, String.append_assoc]

/-- Claim C7. For `InstallFlux` with options that yield a non-empty namespace
`ns` and a non-empty branch `b`, the rendered command starts with
`flux install`, holds `--namespace ns` before a later `--branch b`, and ends
with `--kubeconfig` followed by the manager's path; it is the one command run
when the tool resolves. Whatever the options, the mode token is `install` for
`InstallFlux` and `uninstall` for `UninstallFlux`. -/
theorem install_command_shape (m : Manager) (opts : List Option) (ns b : String)
    (hns : (m.processOpts opts).«namespace» = ns) (hne : ns ≠ "")
    (hb : (m.processOpts opts).branch = b) (hbe : b ≠ "") :
    StartsWith (installCommand m opts) "flux install"
    ∧ ContainsBefore (installCommand m opts) ("--namespace " ++ ns) ("--branch " ++ b)
    ∧ EndsWith (installCommand m opts) ("--kubeconfig " ++ m.kubeConfig)
    ∧ (∀ opts' : List Option,
        StartsWith (installCommand m opts') "flux install "
        ∧ StartsWith (uninstallCommand m opts') "flux uninstall "
        ∧ (m.e.Avail "flux" ≠ "" →
            (m.InstallFlux opts').2
              = [Event.avail "flux", Event.runProc (installCommand m opts')]
            ∧ (m.UninstallFlux opts').2
              = [Event.avail "flux", Event.runProc (uninstallCommand m opts')])) := by
  have e1 : ("flux install" : String) = "flux" ++ " " ++ "install" := by decide
  have e2 : ("flux install " : String) = "flux" ++ " " ++ "install" ++ " " := by decide
  have e3 : ("flux uninstall " : String) = "flux" ++ " " ++ "uninstall" ++ " " := by decide
  have e4 : ("--namespace " : String) = "--namespace" ++ " " := by decide
  have e5 : ("--branch " : String) = "--branch" ++ " " := by decide
  have e6 : ("--kubeconfig " : String) = "--kubeconfig" ++ " " := by decide
  refine ⟨?_, ?_, ?_, ?_⟩
  · obtain ⟨rest, hr⟩ := getCommand_prefix m { m.processOpts opts with mode := "install" }
    refine ⟨" " ++ rest, ?_⟩
    rw [installCommand, hr, e1]
    simp only [String.append_assoc]
  · obtain ⟨post, hp⟩ := getCommand_namespace_branch m
      { m.processOpts opts with mode := "install" } (by simpa [hns] using hne)
      (by simpa [hb] using hbe)
    refine ⟨"flux" ++ " " ++ "install" ++ " ", " ", post, ?_⟩
    rw [installCommand, hp, e4, e5]
    simp only [hns, hb]
  · obtain ⟨front, hf⟩ := getCommand_suffix m { m.processOpts opts with mode := "install" }
    exact ⟨front, by rw [installCommand, hf, e6]⟩
  · intro opts'
    refine ⟨?_, ?_, ?_⟩
    · obtain ⟨rest, hr⟩ := getCommand_prefix m { m.processOpts opts' with mode := "install" }
      exact ⟨rest, by rw [installCommand, hr, e2]⟩
    · obtain ⟨rest, hr⟩ := getCommand_prefix m { m.processOpts opts' with mode := "uninstall" }
      exact ⟨rest, by rw [uninstallCommand, hr, e3]⟩
    · intro hav
      constructor
      · rw [Manager.InstallFlux, run_of_avail m _ hav]; rfl
      · rw [Manager.UninstallFlux, run_of_avail m _ hav]; rfl

/-- Concrete instance of `install_command_shape`: namespace `ns1`, branch `main`. -/
theorem install_command_shape_witness :
    installCommand ⟨okEcho, "/tmp/kubeconfig"⟩ [WithNamespace "ns1", WithBranch "main"]
      = "flux install --namespace ns1 --branch main --kubeconfig /tmp/kubeconfig"
    ∧ ContainsBefore
        (installCommand ⟨okEcho, "/tmp/kubeconfig"⟩ [WithNamespace "ns1", WithBranch "main"])
        ("--namespace " ++ "ns1") ("--branch " ++ "main")
    ∧ EndsWith
        (installCommand ⟨okEcho, "/tmp/kubeconfig"⟩ [WithNamespace "ns1", WithBranch "main"])
        ("--kubeconfig " ++ "/tmp/kubeconfig") :=
  ⟨by decide,
   (install_command_shape ⟨okEcho, "/tmp/kubeconfig"⟩ [WithNamespace "ns1", WithBranch "main"]
      "ns1" "main" rfl (by decide) rfl (by decide)).2.1,
   (install_command_shape ⟨okEcho, "/tmp/kubeconfig"⟩ [WithNamespace "ns1", WithBranch "main"]
      "ns1" "main" rfl (by decide) rfl (by decide)).2.2.1⟩

/-! ## Exit status -/

/-- Claim C9, as stated, fails: on an executor whose failed process carries a
nil error, `run` returns nil although the process did not report success, so
nil is not returned only on success. -/
theorem run_nil_iff_success_counterexample :
    (Manager.mk silentFailEcho "kc").e.Avail "flux" ≠ ""
    ∧ (silentFailEcho.RunProc (Manager.getCommand ⟨silentFailEcho, "kc"⟩
        { «namespace» := "", mode := "install", branch := "", tag := "", args := [] }).1).IsSuccess
      = false
    ∧ (Manager.run ⟨silentFailEcho, "kc"⟩
        { «namespace» := "", mode := "install", branch := "", tag := "", args := [] }).1 = none
    ∧ ¬ ((Manager.run ⟨silentFailEcho, "kc"⟩
          { «namespace» := "", mode := "install", branch := "", tag := "", args := [] }).1 = none
        ↔ (silentFailEcho.RunProc (Manager.getCommand ⟨silentFailEcho, "kc"⟩
            { «namespace» := "", mode := "install", branch := "", tag := "",
              args := [] }).1).IsSuccess = true) := by
  refine ⟨by decide, rfl, rfl, ?_⟩
  intro hiff
  exact Bool.false_ne_true (hiff.mp rfl)

/-- Claim C9, amended. When `run` is reached and the tool resolves, it calls
`RunProc` exactly once, on exactly the string `getCommand` produced, and makes
no other process call; it returns nil when that process reports success and
the process's own error, unchanged, when it does not. Hence the result is nil
if and only if the process reports success or its own error is nil; and it is
nil exactly on success whenever the executor gives a failed process a non-nil
error. -/
theorem run_returns_process_error (m : Manager) (opts : Opts) (h : m.e.Avail "flux" ≠ "") :
    (m.run opts).2 = [Event.avail "flux", Event.runProc (m.getCommand opts).1]
    ∧ processesRun (m.run opts).2 = [(m.getCommand opts).1]
    ∧ ((m.e.RunProc (m.getCommand opts).1).IsSuccess = true → (m.run opts).1 = none)
    ∧ ((m.e.RunProc (m.getCommand opts).1).IsSuccess = false →
        (m.run opts).1 = (m.e.RunProc (m.getCommand opts).1).Err)
    ∧ ((m.run opts).1 = none ↔
        ((m.e.RunProc (m.getCommand opts).1).IsSuccess = true
          ∨ (m.e.RunProc (m.getCommand opts).1).Err = none))
    ∧ (((m.e.RunProc (m.getCommand opts).1).IsSuccess = false →
          (m.e.RunProc (m.getCommand opts).1).Err ≠ none) →
        ((m.run opts).1 = none ↔ (m.e.RunProc (m.getCommand opts).1).IsSuccess = true)) := by
  rw [run_of_avail m opts h]
  refine ⟨rfl, rfl, ?_, ?_, ?_, ?_⟩
  · intro hs
    simp [hs]
  · intro hs
    simp [hs]
  · cases hs : (m.e.RunProc (m.getCommand opts).1).IsSuccess with
    | true => simp
    | false => simp
  · intro hex
    cases hs : (m.e.RunProc (m.getCommand opts).1).IsSuccess with
    | true => simp
    | false => simpa using hex hs

/-- Concrete instance of `run_returns_process_error`: a resolvable tool whose
process fails with `exit status 1`. -/
theorem run_returns_process_error_witness :
    (Manager.run ⟨failEcho, "kc"⟩
        { «namespace» := "", mode := "install", branch := "", tag := "", args := [] }).2
      = [Event.avail "flux", Event.runProc "flux install --kubeconfig kc"]
    ∧ (Manager.run ⟨failEcho, "kc"⟩
        { «namespace» := "", mode := "install", branch := "", tag := "", args := [] }).1
      = some "exit status 1" :=
  ⟨(run_returns_process_error ⟨failEcho, "kc"⟩
      { «namespace» := "", mode := "install", branch := "", tag := "", args := [] }
      (by decide)).1,
   (run_returns_process_error ⟨failEcho, "kc"⟩
      { «namespace» := "", mode := "install", branch := "", tag := "", args := [] }
      (by decide)).2.2.2.1 rfl⟩

/-! ## Validation in the create operations -/

theorem create_call_eq (op : CreateOp) (m : Manager) (name source : String)
    (opts : List Option) :
    op.call m name source opts =
      if name = "" then (some op.nameError, [])
      else if source = "" then (some op.sourceError, [])
      else if (m.processOpts opts).branch = "" ∨ (m.processOpts opts).tag = "" then
        (some tagOrBranchError, [])
      else m.run (m.processOpts opts) := by
  cases op <;> rfl

/-- Claim C4. For every create operation and every option list, an empty name
yields that operation's name-required error and otherwise an empty url/source
yields its url/source-required error; no call reaches the process facility,
neither the availability check nor `RunProc`, whatever the facility is. -/
theorem create_empty_argument_rejected (op : CreateOp) (m : Manager) (name source : String)
    (opts : List Option) (h : name = "" ∨ source = "") :
    op.call m name source opts
      = (some (if name = "" then op.nameError else op.sourceError), [])
    ∧ (op.call m name source opts).1 ≠ none
    ∧ (op.call m name source opts).2 = [] := by
  rw [create_call_eq]
  by_cases hn : name = ""
  · simp [hn]
  · have hs : source = "" := h.resolve_left hn
    simp [hn, hs]

/-- Concrete instance of `create_empty_argument_rejected`: `CreateHelmRepo`
with a name and an empty url, on a facility where the tool resolves. -/
theorem create_empty_argument_rejected_witness :
    CreateOp.helmRepo.call ⟨okEcho, "kc"⟩ "podinfo" "" [WithBranch "main", WithTag "v1"]
      = (some "GitRepository url is required", []) :=
  (create_empty_argument_rejected CreateOp.helmRepo ⟨okEcho, "kc"⟩ "podinfo" ""
    [WithBranch "main", WithTag "v1"] (Or.inr rfl)).1

/-- Claim C5. For every create operation, every non-empty name and url/source
and every option list that leaves both branch and tag empty, the operation
returns the tag-or-branch validation error and makes no call on the process
facility. -/
theorem create_without_branch_and_tag (op : CreateOp) (m : Manager) (name source : String)
    (opts : List Option) (hn : name ≠ "") (hs : source ≠ "")
    (hb : (m.processOpts opts).branch = "") (ht : (m.processOpts opts).tag = "") :
    op.call m name source opts = (some "GitRepository tag or branch is required", []) := by
  rw [create_call_eq]
  simp [hn, hs, hb, tagOrBranchError]

/-- Concrete instance of `create_without_branch_and_tag`: `CreateKustomization`
with the empty option list. -/
theorem create_without_branch_and_tag_witness :
    CreateOp.kustomization.call ⟨okEcho, "kc"⟩ "podinfo" "GitRepository/podinfo" []
      = (some "GitRepository tag or branch is required", []) :=
  create_without_branch_and_tag CreateOp.kustomization ⟨okEcho, "kc"⟩ "podinfo"
    "GitRepository/podinfo" [] (by decide) (by decide) rfl rfl

/-! ## Missing tool -/

/-- Claim C6, as stated, fails: with `flux` not resolvable, `CreateGitRepo`
on an empty name returns the name-required validation error, not the
missing-tool error (and never looks the tool up). -/
theorem missing_tool_every_operation_counterexample :
    (Manager.mk noFluxEcho "kc").e.Avail "flux" = ""
    ∧ Manager.CreateGitRepo ⟨noFluxEcho, "kc"⟩ "" "https://github.com/stefanprodan/podinfo"
        [WithBranch "main", WithTag "v1"]
      = (some "GitRepository name is required", [])
    ∧ (Manager.CreateGitRepo ⟨noFluxEcho, "kc"⟩ "" "https://github.com/stefanprodan/podinfo"
        [WithBranch "main", WithTag "v1"]).1 ≠ some missingToolError := by
  decide

/-- Claim C6, amended. With `flux` not resolvable no operation executes a
process. `InstallFlux` and `UninstallFlux` return the missing-tool error for
every option list. A create operation returns the missing-tool error when its
validation passes (name and url/source non-empty, branch and tag both
non-empty); otherwise it returns the corresponding validation error without
looking the tool up: its name-required error when the name is empty, its
url/source-required error when the name is given and the url/source is empty,
and the tag-or-branch error when both are given and branch and tag are both
empty. -/
theorem missing_tool_after_validation (m : Manager) (h : m.e.Avail "flux" = "")
    (op : CreateOp) (name source : String) (opts : List Option) :
    m.InstallFlux opts = (some missingToolError, [Event.avail "flux"])
    ∧ m.UninstallFlux opts = (some missingToolError, [Event.avail "flux"])
    ∧ processesRun (op.call m name source opts).2 = []
    ∧ (name ≠ "" → source ≠ "" → (m.processOpts opts).branch ≠ "" →
        (m.processOpts opts).tag ≠ "" →
        op.call m name source opts = (some missingToolError, [Event.avail "flux"]))
    ∧ (name = "" → op.call m name source opts = (some op.nameError, []))
    ∧ (name ≠ "" → source = "" → op.call m name source opts = (some op.sourceError, []))
    ∧ (name ≠ "" → source ≠ "" → (m.processOpts opts).branch = "" →
        (m.processOpts opts).tag = "" →
        op.call m name source opts = (some "GitRepository tag or branch is required", []))
    ∧ op.nameError ≠ missingToolError
    ∧ op.sourceError ≠ missingToolError := by
  refine ⟨run_of_missing m _ h, run_of_missing m _ h, ?_, ?_, ?_, ?_, ?_, ?_, ?_⟩
  · rw [create_call_eq]
    split_ifs
    · rfl
    · rfl
    · rfl
    · rw [run_of_missing m _ h]; rfl
  · intro hn hs hb ht
    rw [create_call_eq, run_of_missing m _ h]
    simp [hn, hs, hb, ht]
  · intro hn
    rw [create_call_eq, if_pos hn]
  · intro hn hs
    rw [create_call_eq, if_neg hn, if_pos hs]
  · intro hn hs hb ht
    rw [create_call_eq, if_neg hn, if_neg hs, if_pos (Or.inl hb)]
    rfl
  · cases op <;> simp only [CreateOp.nameError] <;> decide
  · cases op <;> simp only [CreateOp.sourceError] <;> decide

/-- Concrete instance of `missing_tool_after_validation`: `flux` does not
resolve; `InstallFlux` and a valid `CreateHelmRepo` call return the
missing-tool error, `CreateGitRepo` with an empty name its name-required
error, `CreateKustomization` with an empty source its source-required error. -/
theorem missing_tool_after_validation_witness :
    Manager.InstallFlux ⟨noFluxEcho, "kc"⟩ [WithNamespace "flux-system"]
      = (some missingToolError, [Event.avail "flux"])
    ∧ (CreateOp.helmRepo.call ⟨noFluxEcho, "kc"⟩ "podinfo" "https://stefanprodan.github.io/podinfo"
        [WithBranch "main", WithTag "v1"]
      = (some missingToolError, [Event.avail "flux"]))
    ∧ (CreateOp.gitRepo.call ⟨noFluxEcho, "kc"⟩ "" "https://github.com/stefanprodan/podinfo"
        [WithBranch "main", WithTag "v1"]
      = (some "GitRepository name is required", []))
    ∧ (CreateOp.kustomization.call ⟨noFluxEcho, "kc"⟩ "podinfo" ""
        [WithBranch "main", WithTag "v1"]
      = (some "Kustomization source is required", [])) :=
  ⟨(missing_tool_after_validation ⟨noFluxEcho, "kc"⟩ rfl CreateOp.helmRepo "podinfo"
      "https://stefanprodan.github.io/podinfo" [WithNamespace "flux-system"]).1,
   (missing_tool_after_validation ⟨noFluxEcho, "kc"⟩ rfl CreateOp.helmRepo "podinfo"
      "https://stefanprodan.github.io/podinfo" [WithBranch "main", WithTag "v1"]).2.2.2.1
      (by decide) (by decide) (by decide) (by decide),
   (missing_tool_after_validation ⟨noFluxEcho, "kc"⟩ rfl CreateOp.gitRepo ""
      "https://github.com/stefanprodan/podinfo" [WithBranch "main", WithTag "v1"]).2.2.2.2.1
      rfl,
   (missing_tool_after_validation ⟨noFluxEcho, "kc"⟩ rfl CreateOp.kustomization "podinfo"
      "" [WithBranch "main", WithTag "v1"]).2.2.2.2.2.1 (by decide) rfl⟩

/-! ## The chart name of `CreateHelmRelease` -/

/-- Claim C10. `CreateHelmRelease` does not read its chart name: for every
manager (hence every executor), name, source and option list, any two chart
names give the same result and the same calls on the process facility; and an
empty chart name is not rejected: with the other validations passed the
operation is `run` on the processed options. -/
theorem helm_release_ignores_chart_name (m : Manager) (name source c₁ c₂ : String)
    (opts : List Option) :
    m.CreateHelmRelease name source c₁ opts = m.CreateHelmRelease name source c₂ opts
    ∧ (name ≠ "" → source ≠ "" → (m.processOpts opts).branch ≠ "" →
        (m.processOpts opts).tag ≠ "" →
        m.CreateHelmRelease name source "" opts = m.run (m.processOpts opts)) := by
  refine ⟨rfl, ?_⟩
  intro hn hs hb ht
  have hc := create_call_eq (CreateOp.helmRelease "") m name source opts
  rw [if_neg hn, if_neg hs, if_neg (by simp [hb, ht])] at hc
  exact hc

/-- Concrete instance of `helm_release_ignores_chart_name`: an empty chart
name with valid name, source, branch and tag runs the command. -/
theorem helm_release_ignores_chart_name_witness :
    Manager.CreateHelmRelease ⟨okEcho, "kc"⟩ "podinfo" "HelmRepository/podinfo" ""
        [WithBranch "main", WithTag "v1"]
      = Manager.run ⟨okEcho, "kc"⟩
          (Manager.processOpts ⟨okEcho, "kc"⟩ [WithBranch "main", WithTag "v1"]) :=
  (helm_release_ignores_chart_name ⟨okEcho, "kc"⟩ "podinfo" "HelmRepository/podinfo"
    "podinfo" "" [WithBranch "main", WithTag "v1"]).2
    (by decide) (by decide) (by decide) (by decide)

/-! ## Evaluations of the create operations -/

/-- Claim C1 (the code departs from it). With a non-empty name and url/source
and only `WithBranch "main"` supplied, each of the four create operations
returns the tag-or-branch validation error and does not reach `run`: the guard
rejects when either of branch and tag is empty. -/
theorem create_branch_only_rejected (op : CreateOp) :
    op.call ⟨okEcho, "kc"⟩ "podinfo" "https://github.com/stefanprodan/podinfo"
        [WithBranch "main"]
      = (some "GitRepository tag or branch is required", [])
    ∧ op.call ⟨okEcho, "kc"⟩ "podinfo" "https://github.com/stefanprodan/podinfo"
        [WithTag "v1"]
      = (some "GitRepository tag or branch is required", []) := by
  cases op <;> exact ⟨rfl, rfl⟩

/-- Claim C2 (the code departs from it). With validation passed (name, url,
branch and tag all non-empty) each of the four create operations runs the
command `flux  --branch main --tag v1 --kubeconfig kc`: the mode token is
empty and neither the resource name nor the url/source argument appears. -/
theorem create_command_lacks_mode_and_arguments (op : CreateOp) :
    op.call ⟨okEcho, "kc"⟩ "podinfo" "https://github.com/stefanprodan/podinfo"
        [WithBranch "main", WithTag "v1"]
      = (none, [Event.avail "flux",
          Event.runProc "flux  --branch main --tag v1 --kubeconfig kc"]) := by
  cases op <;> rfl

end Flux
